import Mathlib

/-!
Verification development for the cable-modem statistics integration.

The definitions below are a shallow embedding of the response-parsing layer
of the integration: the uptime parser, the MB8600 JSON channel-blob parser,
the CGM4331COM HTML channel parser, and the sensor-side value getters.
Python strings are modelled as lists of characters; Python exceptions are
modelled with an explicit error type threaded through the Except monad.
HTML documents are modelled at the interface the code reads off the parsed
soup: the text of the uptime label's sibling, and for each row-group a list
of rows, each row carrying the text of its first header cell and the texts
of the value elements inside its data cells.
-/

/-- Python strings are modelled as lists of characters. -/
abbrev Str := List Char

/-- The whitespace characters stripped by Python's str.strip and str.split. -/
def isPySpace (c : Char) : Bool :=
  c = ' ' || c = '\t' || c = '\n' || c = '\r' || c = '\x0b' || c = '\x0c'

/-- Python str.strip: drop whitespace from both ends. -/
def pyStrip (s : Str) : Str :=
  ((s.dropWhile isPySpace).reverse.dropWhile isPySpace).reverse

/-- Numeric value of a run of decimal digits. -/
def digitsToNat (s : Str) : Nat :=
  s.foldl (fun n c => n * 10 + (c.toNat - 48)) 0

/-- Longest leading digit run and the remainder. -/
def takeDigits (s : Str) : Str × Str :=
  (s.takeWhile Char.isDigit, s.dropWhile Char.isDigit)

/-- Python str.split with no argument: split on whitespace runs, no empty tokens. -/
def splitWsAux : Str → Str → List Str
  | [], acc => if acc = [] then [] else [acc.reverse]
  | c :: rest, acc =>
    if isPySpace c then
      if acc = [] then splitWsAux rest []
      else acc.reverse :: splitWsAux rest []
    else splitWsAux rest (c :: acc)

/-- Python str.split with no argument. -/
def splitWs (s : Str) : List Str := splitWsAux s []

/-- Maximal digit runs of a string, in order: the behaviour of re.findall
with a digit-run pattern. -/
def digitRunsAux : Str → Str → List Str
  | [], acc => if acc = [] then [] else [acc.reverse]
  | c :: rest, acc =>
    if c.isDigit then digitRunsAux rest (c :: acc)
    else if acc = [] then digitRunsAux rest []
    else acc.reverse :: digitRunsAux rest []

/-- Maximal digit runs of a string (re.findall with a digit-run pattern). -/
def digitRuns (s : Str) : List Str := digitRunsAux s []

/-- First occurrence of a separator: the text before it and the text after it. -/
def findSep (sep : Str) : Str → Option (Str × Str)
  | [] => none
  | c :: rest =>
    if sep.isPrefixOf (c :: rest) then some ([], (c :: rest).drop sep.length)
    else
      match findSep sep rest with
      | some (pre, post) => some (c :: pre, post)
      | none => none

/-- Fuelled worker for pySplit; the fuel is an upper bound on the number of
separator occurrences, so it never runs out at the call site. -/
def pySplitFuel (sep : Str) : Nat → Str → List Str
  | 0, s => [s]
  | fuel + 1, s =>
    match findSep sep s with
    | none => [s]
    | some (pre, post) => pre :: pySplitFuel sep fuel post

/-- Python str.split with a non-empty separator string. -/
def pySplit (sep : Str) (s : Str) : List Str := pySplitFuel sep (s.length + 1) s

/-- Whether a string contains a newline (Python: a newline in full_text). -/
def hasNewline (s : Str) : Bool := s.any (fun c => c = '\n')

/-- Python s.split with a newline and maxsplit 1, second component:
everything after the first newline. -/
def afterFirstNl : Str → Str
  | [] => []
  | c :: rest => if c = '\n' then rest else afterFirstNl rest

/-- Python s.split on newline, first component: everything before the first
newline. -/
def beforeFirstNl (s : Str) : Str := s.takeWhile (fun c => c ≠ '\n')

/-- The Python exceptions the parsing layer can raise. -/
inductive PyErr where
  | valueError
  | indexError
  | typeError
  | keyError
  | attributeError
  | zeroDivisionError
deriving DecidableEq, Repr

/-- A Python float value: a finite rational, an infinity, or a NaN. -/
inductive PyFloat where
  | num (q : ℚ)
  | inf (neg : Bool)
  | nan
deriving DecidableEq, Repr

/-- Python int(s) on a string: strip whitespace, optional sign, decimal digits. -/
def pyIntStr (s : Str) : Except PyErr Int :=
  let t := pyStrip s
  match t with
  | '+' :: rest =>
    if rest ≠ [] ∧ rest.all Char.isDigit then .ok (digitsToNat rest)
    else .error .valueError
  | '-' :: rest =>
    if rest ≠ [] ∧ rest.all Char.isDigit then .ok (-(digitsToNat rest : Int))
    else .error .valueError
  | _ =>
    if t ≠ [] ∧ t.all Char.isDigit then .ok (digitsToNat t)
    else .error .valueError

/-- Mantissa value of an integer part and a fractional part. -/
def mantissaVal (ip fp : Str) : ℚ :=
  (digitsToNat ip : ℚ) + (digitsToNat fp : ℚ) / ((10 : ℚ) ^ fp.length)

/-- Exponent digits of a float literal, applied to a base value. -/
def expDigits (ds : Str) (base : ℚ) (neg : Bool) : Option ℚ :=
  if ds ≠ [] ∧ ds.all Char.isDigit then
    let e := digitsToNat ds
    some (if neg then base / (10 : ℚ) ^ e else base * (10 : ℚ) ^ e)
  else none

/-- Signed exponent tail of a float literal. -/
def expTail (rest : Str) (base : ℚ) : Option ℚ :=
  match rest with
  | '+' :: ds => expDigits ds base false
  | '-' :: ds => expDigits ds base true
  | ds => expDigits ds base false

/-- Optional exponent part of a float literal. -/
def parseExpPart (r : Str) (base : ℚ) : Option ℚ :=
  match r with
  | [] => some base
  | 'e' :: rest => expTail rest base
  | 'E' :: rest => expTail rest base
  | _ => none

/-- Unsigned decimal float literal body: digits, optional point and digits,
optional exponent; the whole string must be consumed. -/
def parseDecimalE (t : Str) : Option ℚ :=
  let (ip, r1) := takeDigits t
  match r1 with
  | '.' :: r2 =>
    let (fp, r3) := takeDigits r2
    if ip = [] ∧ fp = [] then none
    else parseExpPart r3 (mantissaVal ip fp)
  | _ => if ip = [] then none else parseExpPart r1 (digitsToNat ip)

/-- Body of Python float(s) after the sign has been removed. -/
def pyFloatBody (t : Str) (neg : Bool) : Except PyErr PyFloat :=
  let low := t.map Char.toLower
  if low = ['i', 'n', 'f'] ∨ low = ['i', 'n', 'f', 'i', 'n', 'i', 't', 'y'] then
    .ok (.inf neg)
  else if low = ['n', 'a', 'n'] then .ok .nan
  else
    match parseDecimalE t with
    | some q => .ok (.num (if neg then -q else q))
    | none => .error .valueError

/-- Python float(s) on a string. -/
def pyFloatStr (s : Str) : Except PyErr PyFloat :=
  let t := pyStrip s
  match t with
  | '+' :: rest => pyFloatBody rest false
  | '-' :: rest => pyFloatBody rest true
  | _ => pyFloatBody t false

/-- Python list indexing with a non-negative index. -/
def pyIndex (l : List α) (i : Nat) : Except PyErr α :=
  match l.get? i with
  | some a => .ok a
  | none => .error .indexError

/-- Python max over a list of naturals: ValueError on an empty sequence. -/
def pyMax : List Nat → Except PyErr Nat
  | [] => .error .valueError
  | [n] => .ok n
  | n :: m :: rest => do
    let r ← pyMax (m :: rest)
    pure (max n r)

/-- Python integer floor division: ZeroDivisionError on a zero divisor. -/
def pyDiv (a b : Nat) : Except PyErr Nat :=
  if b = 0 then .error .zeroDivisionError else .ok (a / b)

/-- Insertion-ordered dictionary update, as for a Python dict: replace the
value in place when the key is present, append otherwise. -/
def dictInsert [DecidableEq κ] (k : κ) (v : α) : List (κ × α) → List (κ × α)
  | [] => [(k, v)]
  | (k', v') :: tl => if k' = k then (k', v) :: tl else (k', v') :: dictInsert k v tl

/-- Dictionary lookup on an insertion-ordered association list. -/
def dictGet? [DecidableEq κ] (k : κ) : List (κ × α) → Option α
  | [] => none
  | (k', v') :: tl => if k' = k then some v' else dictGet? k tl

/-- Last character test, Python str.endswith with a single character. -/
def endsWithC (s : Str) (c : Char) : Bool := s.getLast? = some c

deriving instance DecidableEq for Except

/-! ### The uptime parser (parse_uptime, lines 77-98) -/

/-- The strict uptime pattern: digits, a literal " days " separator, then
digits and the h, m, s markers in the colon-separated compact layout,
anchored at the start of the string with an arbitrary tail (re.match). -/
def matchStrictUptime (s : Str) : Option (Nat × Nat × Nat × Nat) :=
  let (d1, r1) := takeDigits s
  if d1 = [] then none
  else if (' ' :: ('d' :: ['a', 'y', 's', ' '])).isPrefixOf r1 then
    let r2 := r1.drop 6
    let (d2, r3) := takeDigits r2
    if d2 = [] then none
    else
      match r3 with
      | 'h' :: ':' :: r4 =>
        let (d3, r5) := takeDigits r4
        if d3 = [] then none
        else
          match r5 with
          | 'm' :: ':' :: r6 =>
            let (d4, r7) := takeDigits r6
            if d4 = [] then none
            else
              match r7 with
              | 's' :: _ => some (digitsToNat d1, digitsToNat d2, digitsToNat d3, digitsToNat d4)
              | _ => none
          | _ => none
      | _ => none
  else none

/-- Python parts i-1 with the negative-index wraparound: 0 - 1 indexes the
last element. -/
def pyItemPrev (parts : List Str) (i : Nat) : Except PyErr Str :=
  pyIndex parts (if i = 0 then parts.length - 1 else i - 1)

/-- The token loop of the loose uptime layout: a token equal to days takes
the preceding token as the day count, and tokens ending in h, m, s supply
hours, minutes and seconds; each conversion can raise ValueError. -/
def looseLoop (parts : List Str) : Nat → List Str → Int × Int × Int × Int →
    Except PyErr (Int × Int × Int × Int)
  | _, [], st => .ok st
  | i, p :: rest, (d, h, m, sec) =>
    if p = ['d', 'a', 'y', 's'] then do
      let prev ← pyItemPrev parts i
      let v ← pyIntStr prev
      looseLoop parts (i + 1) rest (v, h, m, sec)
    else if endsWithC p 'h' then do
      let v ← pyIntStr (p.dropLast)
      looseLoop parts (i + 1) rest (d, v, m, sec)
    else if endsWithC p 'm' then do
      let v ← pyIntStr (p.dropLast)
      looseLoop parts (i + 1) rest (d, h, v, sec)
    else if endsWithC p 's' then do
      let v ← pyIntStr (p.dropLast)
      looseLoop parts (i + 1) rest (d, h, m, v)
    else looseLoop parts (i + 1) rest (d, h, m, sec)

/-- parse_uptime: the strict pattern first, the loose token walk otherwise,
then the weighted sum of the four components. -/
def parse_uptime (text : Str) : Except PyErr Int :=
  match matchStrictUptime text with
  | some (d, h, m, sec) =>
    .ok ((d : Int) * 86400 + (h : Int) * 3600 + (m : Int) * 60 + (sec : Int))
  | none => do
    let parts := splitWs text
    let (d, h, m, sec) ← looseLoop parts 0 parts (0, 0, 0, 0)
    pure (d * 86400 + h * 3600 + m * 60 + sec)

/-! ### The MB8600 JSON channel parser (_parse_mb8600_json, lines 128-175) -/

/-- A downstream channel record, the fields written by both parsers. -/
structure DownChannel where
  channel : Int
  lock_status : Str
  modulation : Str
  channel_id : Int
  frequency : PyFloat
  power : PyFloat
  snr : PyFloat
  corrected_errors : Int
  uncorrected_errors : Int
deriving DecidableEq, Repr

/-- An upstream channel record, the fields written by both parsers. -/
structure UpChannel where
  channel : Int
  lock_status : Str
  modulation : Str
  channel_id : Int
  symbol_rate : Int
  frequency : PyFloat
  power : PyFloat
deriving DecidableEq, Repr

/-- The downstream channel map, keyed by channel number in insertion order. -/
abbrev DownMap := List (Int × DownChannel)

/-- The upstream channel map, keyed by channel number in insertion order. -/
abbrev UpMap := List (Int × UpChannel)

/-- The result dictionary both parsers populate: the downstream and upstream
channel maps and the optional system uptime. -/
structure ParseResult where
  downstream : DownMap
  upstream : UpMap
  system_uptime : Option Int
deriving DecidableEq, Repr

/-- The record separator of the channel blobs. -/
def sepRecord : Str := ['|', '+', '|']

/-- The field separator of a channel record. -/
def sepField : Str := ['^']

/-- One downstream record of the JSON blob: fields are positional, the
numeric positions are converted with int and float in the evaluation order
of the Python dict literal, and any failure raises. -/
def mkDownChannel (fields : List Str) : Except PyErr DownChannel := do
  let channel_num ← pyIntStr (← pyIndex fields 0)
  let lock ← pyIndex fields 1
  let modu ← pyIndex fields 2
  let cid ← pyIntStr (← pyIndex fields 3)
  let freq ← pyFloatStr (← pyIndex fields 4)
  let pow ← pyFloatStr (← pyIndex fields 5)
  let snr ← pyFloatStr (← pyIndex fields 6)
  let corr ← pyIntStr (← pyIndex fields 7)
  let uncorr ← pyIntStr (← pyIndex fields 8)
  pure ⟨channel_num, lock, modu, cid, freq, pow, snr, corr, uncorr⟩

/-- One upstream record of the JSON blob: 7 positional fields. -/
def mkUpChannel (fields : List Str) : Except PyErr UpChannel := do
  let channel_num ← pyIntStr (← pyIndex fields 0)
  let lock ← pyIndex fields 1
  let modu ← pyIndex fields 2
  let cid ← pyIntStr (← pyIndex fields 3)
  let srate ← pyIntStr (← pyIndex fields 4)
  let freq ← pyFloatStr (← pyIndex fields 5)
  let pow ← pyFloatStr (← pyIndex fields 6)
  pure ⟨channel_num, lock, modu, cid, srate, freq, pow⟩

/-- The downstream record loop: empty records are skipped, every other
record is split on the field separator and decoded, and the channel number
keys the map entry. -/
def parseDSRecords : List Str → DownMap → Except PyErr DownMap
  | [], acc => .ok acc
  | r :: rest, acc =>
    if r = [] then parseDSRecords rest acc
    else
      match mkDownChannel (pySplit sepField r) with
      | .ok ch => parseDSRecords rest (dictInsert ch.channel ch acc)
      | .error e => .error e

/-- The upstream record loop. -/
def parseUSRecords : List Str → UpMap → Except PyErr UpMap
  | [], acc => .ok acc
  | r :: rest, acc =>
    if r = [] then parseUSRecords rest acc
    else
      match mkUpChannel (pySplit sepField r) with
      | .ok ch => parseUSRecords rest (dictInsert ch.channel ch acc)
      | .error e => .error e

/-- The downstream half of _parse_mb8600_json: split the blob on the record
separator and run the record loop. -/
def parseDownstreamBlob (blob : Str) : Except PyErr DownMap :=
  parseDSRecords (pySplit sepRecord blob) []

/-- The upstream half of _parse_mb8600_json. -/
def parseUpstreamBlob (blob : Str) : Except PyErr UpMap :=
  parseUSRecords (pySplit sepRecord blob) []

/-- The three strings the JSON parser reads from the fixed key paths of the
decoded response object. -/
structure MB8600Data where
  dsBlob : Str
  usBlob : Str
  uptimeStr : Str

/-- _parse_mb8600_json on the three extracted strings: downstream channels,
then upstream channels, then the uptime, with exceptions propagating. -/
def parse_mb8600_json (d : MB8600Data) : Except PyErr ParseResult := do
  let ds ← parseDownstreamBlob d.dsBlob
  let us ← parseUpstreamBlob d.usBlob
  let up ← parse_uptime d.uptimeStr
  pure ⟨ds, us, some up⟩

/-! ### The CGM4331COM HTML channel parser (_parse_cgm4331com_html, lines 177-529) -/

/-- One table row as the code reads it off the soup: the text of the first
header cell when one exists, and, for each data cell, the texts of the
nested value elements in document order. -/
structure HtmlRow where
  th : Option Str
  tds : List (List Str)

/-- An HTML document at the interface the parser consumes: the text of the
span following the System Uptime label (none when the label is absent, some
none when the label has no following span sibling), and the row-groups. -/
structure HtmlDoc where
  uptimeSibling : Option (Option Str)
  tables : List (List HtmlRow)

/-- The Channel ID row label. -/
def chanIdLabel : Str := ['C', 'h', 'a', 'n', 'n', 'e', 'l', ' ', 'I', 'D']

/-- The Lock Status row label. -/
def lockLabel : Str := ['L', 'o', 'c', 'k', ' ', 'S', 't', 'a', 't', 'u', 's']

/-- The Frequency row label. -/
def freqLabel : Str := ['F', 'r', 'e', 'q', 'u', 'e', 'n', 'c', 'y']

/-- The SNR row label. -/
def snrLabel : Str := ['S', 'N', 'R']

/-- The Power Level row label. -/
def powerLabel : Str := ['P', 'o', 'w', 'e', 'r', ' ', 'L', 'e', 'v', 'e', 'l']

/-- The Modulation row label. -/
def modulationLabel : Str := ['M', 'o', 'd', 'u', 'l', 'a', 't', 'i', 'o', 'n']

/-- The Symbol Rate row label. -/
def symbolRateLabel : Str := ['S', 'y', 'm', 'b', 'o', 'l', ' ', 'R', 'a', 't', 'e']

/-- The Correctable Codewords row label. -/
def corrLabel : Str :=
  ['C', 'o', 'r', 'r', 'e', 'c', 't', 'a', 'b', 'l', 'e', ' ',
   'C', 'o', 'd', 'e', 'w', 'o', 'r', 'd', 's']

/-- The Uncorrectable Codewords row label. -/
def uncorrLabel : Str :=
  ['U', 'n', 'c', 'o', 'r', 'r', 'e', 'c', 't', 'a', 'b', 'l', 'e', ' ',
   'C', 'o', 'd', 'e', 'w', 'o', 'r', 'd', 's']

/-- The MHz unit string of the frequency heuristic. -/
def mhzStr : Str := ['M', 'H', 'z']

/-- The per-row values: the stripped text of every value element of every
data cell, in document order. -/
def tdValues (row : HtmlRow) : List Str :=
  (row.tds.map (fun td => td.map pyStrip)).flatten

/-- The row label: the header cell text stripped, cut at the first newline,
and stripped again. -/
def rowHeaderOf (t : Str) : Str := pyStrip (beforeFirstNl (pyStrip t))

/-- The digit-splitting heuristic of lines 236-245: consume two digits when
the three-digit window starting at the position, read as an integer, is
below 100, and one digit otherwise. -/
def splitGiant : Str → List Str
  | c :: d :: e :: tl =>
    if digitsToNat [c, d, e] < 100 then [c, d] :: splitGiant (e :: tl)
    else [c] :: splitGiant (d :: e :: tl)
  | c :: tl => [c] :: splitGiant tl
  | [] => []

/-- The Channel ID fallback of lines 225-247 on the stripped header text:
take the digit runs of the text after the first newline, and break a single
run longer than three digits with the splitting heuristic. -/
def chanIdFallback (fullText : Str) : List Str :=
  let valueText := pyStrip (afterFirstNl fullText)
  match digitRuns valueText with
  | [r] => if r.length > 3 then splitGiant r else [r]
  | rs => rs

/-- The row-data dictionary of a downstream or upstream table: rows without
a header cell are skipped, values come from the data cells, and the Channel
ID fallback fires when no values were found and the header text holds a
newline-separated blob. -/
def buildRowData (rows : List HtmlRow) : List (Str × List Str) :=
  rows.foldl
    (fun acc row =>
      match row.th with
      | none => acc
      | some t =>
        let header := rowHeaderOf t
        let values := tdValues row
        let values :=
          if values = [] ∧ header = chanIdLabel ∧ hasNewline (pyStrip t) then
            chanIdFallback (pyStrip t)
          else values
        dictInsert header values acc)
    []

/-- A fresh downstream channel record with zero and empty defaults. -/
def mkInitDown (cn : Int) (cid : Int) : DownChannel :=
  ⟨cn, [], [], cid, .num 0, .num 0, .num 0, 0, 0⟩

/-- A fresh upstream channel record with zero and empty defaults. -/
def mkInitUp (cn : Int) (cid : Int) : UpChannel :=
  ⟨cn, [], [], cid, 0, .num 0, .num 0⟩

/-- The channel id for position i: the parsed Channel ID entry when it is
in range and converts, and the 1-based position otherwise. -/
def chanIdAt (ids : List Str) (i : Nat) (cn : Int) : Int :=
  match ids.get? i with
  | some s =>
    match pyIntStr s with
    | .ok n => n
    | .error _ => cn
  | none => cn

/-- The downstream channel creation loop of lines 261-281. -/
def buildDownLoop (ids : List Str) : List Nat → DownMap → DownMap
  | [], m => m
  | i :: rest, m =>
    buildDownLoop ids rest
      (dictInsert ((i : Int) + 1) (mkInitDown ((i : Int) + 1) (chanIdAt ids i ((i : Int) + 1))) m)

/-- One downstream channel record per 1-based position. -/
def buildDownChannels (num : Nat) (ids : List Str) : DownMap :=
  buildDownLoop ids (List.range num) []

/-- The upstream channel creation loop of lines 378-396. -/
def buildUpLoop (ids : List Str) : List Nat → UpMap → UpMap
  | [], m => m
  | i :: rest, m =>
    buildUpLoop ids rest
      (dictInsert ((i : Int) + 1) (mkInitUp ((i : Int) + 1) (chanIdAt ids i ((i : Int) + 1))) m)

/-- One upstream channel record per 1-based position. -/
def buildUpChannels (num : Nat) (ids : List Str) : UpMap :=
  buildUpLoop ids (List.range num) []

/-- The number-with-unit pattern of the frequency rows: a leading unsigned
decimal, skipped whitespace, then a maximal word-character run. -/
def matchFreqUnit (value : Str) : Option (Str × Str) :=
  let (ip, r1) := takeDigits value
  if ip = [] then none
  else
    let (numS, rest) :=
      match r1 with
      | '.' :: r2 =>
        let (fp, r3) := takeDigits r2
        if fp = [] then (ip, r1) else (ip ++ '.' :: fp, r3)
      | _ => (ip, r1)
    let afterWs := rest.dropWhile isPySpace
    some (numS, afterWs.takeWhile (fun c => c.isAlphanum || c = '_'))

/-- The unsigned decimal pattern of the SNR rows. -/
def matchUnsigned (value : Str) : Option Str :=
  (matchFreqUnit value).map Prod.fst

/-- The optionally signed decimal pattern of the power rows. -/
def matchSigned (value : Str) : Option (Bool × Str) :=
  match value with
  | '+' :: rest => (matchUnsigned rest).map (fun s => (false, s))
  | '-' :: rest => (matchUnsigned rest).map (fun s => (true, s))
  | _ => (matchUnsigned value).map (fun s => (false, s))

/-- The leading unsigned integer pattern of the symbol-rate rows. -/
def matchIntRun (value : Str) : Option Str :=
  let (ip, _) := takeDigits value
  if ip = [] then none else some ip

/-- Rational value of a matched unsigned decimal group. -/
def ratOfNumStr (s : Str) : ℚ :=
  let (ip, r1) := takeDigits s
  match r1 with
  | '.' :: r2 => mantissaVal ip (r2.takeWhile Char.isDigit)
  | _ => (digitsToNat ip : ℚ)

/-- Update the entry stored under a key of the downstream map. -/
def updateDown (m : DownMap) (k : Int) (f : DownChannel → DownChannel) : DownMap :=
  m.map (fun p => if p.1 = k then (p.1, f p.2) else p)

/-- Update the entry stored under a key of the upstream map. -/
def updateUp (m : UpMap) (k : Int) (f : UpChannel → UpChannel) : UpMap :=
  m.map (fun p => if p.1 = k then (p.1, f p.2) else p)

/-- One downstream value assignment of lines 290-317: positions without a
channel entry are skipped, and each recognized header writes its field,
with the Hz-to-MHz heuristic on frequency values above a million. -/
def applyDownValue (m : DownMap) (cn : Int) (header value : Str) : DownMap :=
  if (dictGet? cn m).isNone then m
  else if header = lockLabel then
    updateDown m cn (fun c => { c with lock_status := value })
  else if header = freqLabel then
    match matchFreqUnit value with
    | some (numS, unitS) =>
      let freq := ratOfNumStr numS
      let freq := if unitS ≠ mhzStr ∧ freq > 1000000 then freq / 1000000 else freq
      updateDown m cn (fun c => { c with frequency := .num freq })
    | none => m
  else if header = snrLabel then
    match matchUnsigned value with
    | some numS => updateDown m cn (fun c => { c with snr := .num (ratOfNumStr numS) })
    | none => m
  else if header = powerLabel then
    match matchSigned value with
    | some (neg, numS) =>
      let q := ratOfNumStr numS
      updateDown m cn (fun c => { c with power := .num (if neg then -q else q) })
    | none => m
  else if header = modulationLabel then
    updateDown m cn (fun c => { c with modulation := value })
  else m

/-- The inner enumeration of one downstream row's values. -/
def applyDownRow (header : Str) : Nat → List Str → DownMap → DownMap
  | _, [], m => m
  | i, v :: vs, m => applyDownRow header (i + 1) vs (applyDownValue m ((i : Int) + 1) header v)

/-- The downstream value-assignment loop of lines 284-317, skipping the
Channel ID row. -/
def assignDownValues : List (Str × List Str) → DownMap → DownMap
  | [], m => m
  | (h, vs) :: rest, m =>
    if h = chanIdLabel then assignDownValues rest m
    else assignDownValues rest (applyDownRow h 0 vs m)

/-- One upstream value assignment of lines 405-432. -/
def applyUpValue (m : UpMap) (cn : Int) (header value : Str) : UpMap :=
  if (dictGet? cn m).isNone then m
  else if header = lockLabel then
    updateUp m cn (fun c => { c with lock_status := value })
  else if header = freqLabel then
    match matchFreqUnit value with
    | some (numS, unitS) =>
      let freq := ratOfNumStr numS
      let freq := if unitS ≠ mhzStr ∧ freq > 1000000 then freq / 1000000 else freq
      updateUp m cn (fun c => { c with frequency := .num freq })
    | none => m
  else if header = symbolRateLabel then
    match matchIntRun value with
    | some numS => updateUp m cn (fun c => { c with symbol_rate := (digitsToNat numS : Int) })
    | none => m
  else if header = powerLabel then
    match matchSigned value with
    | some (neg, numS) =>
      let q := ratOfNumStr numS
      updateUp m cn (fun c => { c with power := .num (if neg then -q else q) })
    | none => m
  else if header = modulationLabel then
    updateUp m cn (fun c => { c with modulation := value })
  else m

/-- The inner enumeration of one upstream row's values. -/
def applyUpRow (header : Str) : Nat → List Str → UpMap → UpMap
  | _, [], m => m
  | i, v :: vs, m => applyUpRow header (i + 1) vs (applyUpValue m ((i : Int) + 1) header v)

/-- The upstream value-assignment loop of lines 399-432. -/
def assignUpValues : List (Str × List Str) → UpMap → UpMap
  | [], m => m
  | (h, vs) :: rest, m =>
    if h = chanIdLabel then assignUpValues rest m
    else assignUpValues rest (applyUpRow h 0 vs m)

/-- The fuelled chunking loop of lines 487-489: slices of chunk-size digits
stepping through the whole string; the fuel is the string length, which is
enough for any positive chunk size. -/
def chunkEveryAux : Nat → Nat → Str → List Str
  | 0, _, _ => []
  | _, _, [] => []
  | fuel + 1, k, c :: tl => ((c :: tl).take k) :: chunkEveryAux fuel k (tl.drop (k - 1))

/-- The chunking of a digit string into slices of k digits, the loop of
lines 487-489 for a positive chunk size k. -/
def chunkEvery (k : Nat) (l : Str) : List Str := chunkEveryAux l.length k l

/-- One row of the error table, lines 442-497: the Channel ID fallback, the
codeword chunking against the already-parsed Channel ID row (whose length
the chunk-size division can divide by, raising on zero), and the digit-run
fallbacks. -/
def buildErrorRow (acc : List (Str × List Str)) (row : HtmlRow) :
    Except PyErr (List (Str × List Str)) :=
  match row.th with
  | none => .ok acc
  | some t =>
    let header := rowHeaderOf t
    let values := tdValues row
    let fullText := pyStrip t
    if values = [] ∧ hasNewline fullText then
      let valueText := pyStrip (afterFirstNl fullText)
      if header = chanIdLabel then
        let values :=
          match digitRuns valueText with
          | [r] => if r.length > 3 then splitGiant r else [r]
          | rs => rs
        .ok (dictInsert header values acc)
      else if header = corrLabel ∨ header = uncorrLabel then do
        let values ←
          match dictGet? chanIdLabel acc with
          | some ids => do
            let big := valueText.filter Char.isDigit
            let chunkSize ← pyDiv big.length ids.length
            if chunkSize > 0 then pure (chunkEvery chunkSize big)
            else pure (digitRuns valueText)
          | none => pure (digitRuns valueText)
        .ok (dictInsert header values acc)
      else .ok (dictInsert header ([] : List Str) acc)
    else .ok (dictInsert header values acc)

/-- The error-table row loop. -/
def buildErrorData : List HtmlRow → List (Str × List Str) →
    Except PyErr (List (Str × List Str))
  | [], acc => .ok acc
  | row :: rest, acc => do
    let acc ← buildErrorRow acc row
    buildErrorData rest acc

/-- One error assignment of lines 503-518: write the two codeword counts of
a position into its downstream channel, swallowing conversion failures. -/
def assignErrorAt (corr uncorr : List Str) (i : Nat) (m : DownMap) : DownMap :=
  let cn : Int := (i : Int) + 1
  if (dictGet? cn m).isSome then
    let m :=
      match corr.get? i with
      | some s =>
        match pyIntStr s with
        | .ok n => updateDown m cn (fun c => { c with corrected_errors := n })
        | .error _ => m
      | none => m
    match uncorr.get? i with
    | some s =>
      match pyIntStr s with
      | .ok n => updateDown m cn (fun c => { c with uncorrected_errors := n })
      | .error _ => m
    | none => m
  else m

/-- The enumeration of the Channel ID entries in the error assignment. -/
def assignErrorLoop (corr uncorr : List Str) : Nat → List Str → DownMap → DownMap
  | _, [], m => m
  | i, _ :: rest, m => assignErrorLoop corr uncorr (i + 1) rest (assignErrorAt corr uncorr i m)

/-- The error assignment of lines 502-518, gated on all three error rows
being present. -/
def assignErrors (ed : List (Str × List Str)) (m : DownMap) : DownMap :=
  match dictGet? chanIdLabel ed, dictGet? corrLabel ed, dictGet? uncorrLabel ed with
  | some ids, some corr, some uncorr => assignErrorLoop corr uncorr 0 ids m
  | _, _, _ => m

/-- The uptime block of lines 186-192: absent label leaves the uptime out,
a label without a following span raises AttributeError, and the sibling
text goes through parse_uptime. -/
def uptimeSection (doc : HtmlDoc) : Except PyErr (Option Int) :=
  match doc.uptimeSibling with
  | none => .ok none
  | some none => .error .attributeError
  | some (some s) => do
    let n ← parse_uptime s
    pure (some n)

/-- The downstream or upstream channel map of one table: the channel
objects are created and filled only when a non-empty Channel ID row exists. -/
def downTableChannels (data : List (Str × List Str)) (num : Nat) : DownMap :=
  match dictGet? chanIdLabel data with
  | some ids => if ids ≠ [] then assignDownValues data (buildDownChannels num ids) else []
  | none => []

/-- The upstream variant of downTableChannels. -/
def upTableChannels (data : List (Str × List Str)) (num : Nat) : UpMap :=
  match dictGet? chanIdLabel data with
  | some ids => if ids ≠ [] then assignUpValues data (buildUpChannels num ids) else []
  | none => []

/-- _parse_cgm4331com_html: the uptime block, then, when at least three
row-groups are present, the downstream table, the upstream table, and the
error table; with fewer than three row-groups the channel maps stay empty. -/
def parse_cgm4331com_html (doc : HtmlDoc) : Except PyErr ParseResult := do
  let up ← uptimeSection doc
  match doc.tables with
  | t0 :: t1 :: t2 :: _ => do
    let dsData := buildRowData t0
    let numDs ← pyMax (dsData.map (fun kv => kv.2.length))
    let ds := downTableChannels dsData numDs
    let usData := buildRowData t1
    let numUs ← pyMax (usData.map (fun kv => kv.2.length))
    let us := upTableChannels usData numUs
    let ed ← buildErrorData t2 []
    let ds := assignErrors ed ds
    pure ⟨ds, us, up⟩
  | _ => pure ⟨[], [], up⟩

/-! ### The sensor value getters (sensor.py, lines 45-99) -/

/-- A Python value as the coordinator data may hold it. -/
inductive PyVal where
  | vnone
  | vbool (b : Bool)
  | vint (n : Int)
  | vfloat (f : PyFloat)
  | vstr (s : Str)
  | vlist (l : List PyVal)
  | vdict (entries : List (PyVal × PyVal))

/-- Python truthiness. -/
def pyTruthy : PyVal → Bool
  | .vnone => false
  | .vbool b => b
  | .vint n => n ≠ 0
  | .vfloat (.num q) => q ≠ 0
  | .vfloat (.inf _) => true
  | .vfloat .nan => true
  | .vstr s => s ≠ []
  | .vlist l => !l.isEmpty
  | .vdict l => !l.isEmpty

/-- isinstance(x, dict). -/
def PyVal.isDict : PyVal → Bool
  | .vdict _ => true
  | _ => false

/-- The numeric value of a Python scalar under cross-type equality, when it
has one: booleans equal their 0-1 value and integers equal equal floats. -/
def pyNumVal : PyVal → Option ℚ
  | .vbool b => some (if b then 1 else 0)
  | .vint n => some (n : ℚ)
  | .vfloat (.num q) => some q
  | _ => none

/-- Python equality between values, with numeric cross-type equality;
infinities equal only the same-signed infinity and NaN equals nothing.
Equality between two containers is modelled as false: the getters only
compare the int channel and str key probes against stored values, so a
container-to-container comparison is never reached from them. -/
def pyEq : PyVal → PyVal → Bool
  | .vnone, .vnone => true
  | .vstr a, .vstr b => a = b
  | .vfloat (.inf a), .vfloat (.inf b) => a = b
  | .vfloat .nan, _ => false
  | _, .vfloat .nan => false
  | .vlist _, _ => false
  | _, .vlist _ => false
  | .vdict _, _ => false
  | _, .vdict _ => false
  | a, b =>
    match pyNumVal a, pyNumVal b with
    | some x, some y => x = y
    | _, _ => false

/-- Whether a value may be a dict key: lists and dicts are unhashable. -/
def pyHashableKey : PyVal → Bool
  | .vlist _ => false
  | .vdict _ => false
  | _ => true

/-- Lookup by Python equality in a dict's entry list. -/
def pyDictLookup (k : PyVal) : List (PyVal × PyVal) → Option PyVal
  | [] => none
  | (k', v) :: tl => if pyEq k' k then some v else pyDictLookup k tl

/-- Python membership: key lookup for dicts (TypeError on unhashable keys),
element equality for lists, substring search for strings, TypeError
elsewhere. -/
def pyContains (container : PyVal) (x : PyVal) : Except PyErr Bool :=
  match container with
  | .vdict l =>
    if pyHashableKey x then .ok (pyDictLookup x l).isSome else .error .typeError
  | .vlist l => .ok (l.any (fun e => pyEq e x))
  | .vstr s =>
    match x with
    | .vstr sub => .ok ((List.range (s.length + 1)).any (fun i => sub.isPrefixOf (s.drop i)))
    | _ => .error .typeError
  | _ => .error .typeError

/-- Python list indexing with an integer index and negative wraparound. -/
def pyListIndex (l : List PyVal) (n : Int) : Except PyErr PyVal :=
  let i := if n < 0 then n + l.length else n
  if h : 0 ≤ i ∧ i.toNat < l.length then .ok (l.get ⟨i.toNat, h.2⟩)
  else .error .indexError

/-- Python subscription: dict key lookup (KeyError when absent, TypeError
on unhashable keys), list indexing with negative wraparound, string
indexing, TypeError elsewhere. -/
def pyGetItem (container : PyVal) (x : PyVal) : Except PyErr PyVal :=
  match container with
  | .vdict l =>
    if pyHashableKey x then
      match pyDictLookup x l with
      | some v => .ok v
      | none => .error .keyError
    else .error .typeError
  | .vlist l =>
    match x with
    | .vint n => pyListIndex l n
    | .vbool b => pyListIndex l (if b then 1 else 0)
    | _ => .error .typeError
  | .vstr s =>
    match x with
    | .vint n =>
      let i := if n < 0 then n + s.length else n
      if h : 0 ≤ i ∧ i.toNat < s.length then .ok (.vstr [s.get ⟨i.toNat, h.2⟩])
      else .error .indexError
    | _ => .error .typeError
  | _ => .error .typeError

/-- The downstream key string. -/
def dsKeyStr : Str := ['d', 'o', 'w', 'n', 's', 't', 'r', 'e', 'a', 'm']

/-- The upstream key string. -/
def usKeyStr : Str := ['u', 'p', 's', 't', 'r', 'e', 'a', 'm']

/-- The body of get_downstream_value or get_upstream_value before the
catch-all handler: the truthiness and isinstance guard, the three
membership guards each returning None, then the chained subscriptions. -/
def getValueBody (dirKey : Str) (data : PyVal) (key : Str) (channel : Int) :
    Except PyErr PyVal := do
  if ¬ pyTruthy data ∨ ¬ data.isDict then return .vnone
  let hasDir ← pyContains data (.vstr dirKey)
  if ¬ hasDir then return .vnone
  let d ← pyGetItem data (.vstr dirKey)
  let hasCh ← pyContains d (.vint channel)
  if ¬ hasCh then return .vnone
  let c ← pyGetItem d (.vint channel)
  let hasKey ← pyContains c (.vstr key)
  if ¬ hasKey then return .vnone
  let d2 ← pyGetItem data (.vstr dirKey)
  let c2 ← pyGetItem d2 (.vint channel)
  pyGetItem c2 (.vstr key)

/-- get_downstream_value: the body with every exception caught to None. -/
def get_downstream_value (data : PyVal) (key : Str) (channel : Int) : PyVal :=
  match getValueBody dsKeyStr data key channel with
  | .ok v => v
  | .error _ => .vnone

/-- get_upstream_value: the body with every exception caught to None. -/
def get_upstream_value (data : PyVal) (key : Str) (channel : Int) : PyVal :=
  match getValueBody usKeyStr data key channel with
  | .ok v => v
  | .error _ => .vnone

/-! ### Claim vocabulary and concrete inputs -/

/-- Whether an Except value carries a result. -/
def isOkE : Except ε α → Bool
  | .ok _ => true
  | .error _ => false

/-- A downstream record's fields are well-formed: at least the 9 required
positions and every numeric position (int at 0, 3, 7, 8; float at 4, 5, 6)
parseable. -/
def goodDownFields : List Str → Bool
  | f0 :: _ :: _ :: f3 :: f4 :: f5 :: f6 :: f7 :: f8 :: _ =>
    isOkE (pyIntStr f0) && isOkE (pyIntStr f3) && isOkE (pyFloatStr f4) &&
    isOkE (pyFloatStr f5) && isOkE (pyFloatStr f6) && isOkE (pyIntStr f7) &&
    isOkE (pyIntStr f8)
  | _ => false

/-- An upstream record's fields are well-formed: at least the 7 required
positions and every numeric position (int at 0, 3, 4; float at 5, 6)
parseable. -/
def goodUpFields : List Str → Bool
  | f0 :: _ :: _ :: f3 :: f4 :: f5 :: f6 :: _ =>
    isOkE (pyIntStr f0) && isOkE (pyIntStr f3) && isOkE (pyIntStr f4) &&
    isOkE (pyFloatStr f5) && isOkE (pyFloatStr f6)
  | _ => false

/-- A token the loose uptime walk ignores: not the days marker and not
ending in h, m or s. -/
def inertTok (t : Str) : Bool :=
  t ≠ ['d', 'a', 'y', 's'] && !endsWithC t 'h' && !endsWithC t 'm' && !endsWithC t 's'

/-- Every downstream map entry's channel field equals its key. -/
def DownInv (m : DownMap) : Prop := ∀ p ∈ m, p.2.channel = p.1

/-- Every upstream map entry's channel field equals its key. -/
def UpInv (m : UpMap) : Prop := ∀ p ∈ m, p.2.channel = p.1

/-- The synthetic downstream blob of the round-trip property. -/
def c1blob : Str :=
  ("1^locked^QAM256^5^549.0^5.1^40.2^0^0|+|2^locked^QAM256^6^555.0^5.3^40.0^1^2").data

/-- An HTML document whose three row-groups contain no header rows. -/
def docThreeEmpty : HtmlDoc := ⟨none, [[], [], []]⟩

/-- A Channel ID row whose header cell holds the concatenated digit run. -/
def c3row : HtmlRow := ⟨some (("Channel ID\n123456").data), []⟩

/-- An error table with two channel ids and a five-digit codeword blob. -/
def errRowsC4 : List HtmlRow :=
  [⟨some (("Channel ID\n1 2").data), []⟩,
   ⟨some (("Uncorrectable Codewords\n12345").data), []⟩]

/-- A downstream record with only 4 fields. -/
def c5blobBad : Str := ("1^a^b^c").data

/-- The strict-form uptime example string. -/
def c8str : Str := ("1 days 02h:03m:04s").data

/-- An input token the loose uptime walk chokes on. -/
def c7bad : Str := ("xs").data

/-- The garbage uptime example of the specification. -/
def c7garbage : Str := ("nonsense").data

/-- A small coordinator data value with one channel per direction. -/
def c10data : PyVal :=
  .vdict
    [(.vstr dsKeyStr, .vdict [(.vint 1, .vdict [(.vstr (('s' :: ['n', 'r'])), .vfloat (.num 40))])]),
     (.vstr usKeyStr, .vdict [(.vint 1, .vdict [(.vstr (('p' :: ['o', 'w', 'e', 'r'])), .vint 3)])])]

/-! ### Claim theorems -/

/-- C1: parsing the synthetic downstream blob yields a map with exactly the
keys 1 and 2, whose entries carry channel_id 5 and 6 and uncorrected error
counts 0 and 2 respectively. -/
theorem json_blob_round_trip :
    (parseDownstreamBlob c1blob).toOption.map (fun l => l.map Prod.fst) = some [1, 2] ∧
    ((parseDownstreamBlob c1blob).toOption.bind (dictGet? 1)).map DownChannel.channel_id
      = some 5 ∧
    ((parseDownstreamBlob c1blob).toOption.bind (dictGet? 1)).map DownChannel.uncorrected_errors
      = some 0 ∧
    ((parseDownstreamBlob c1blob).toOption.bind (dictGet? 2)).map DownChannel.channel_id
      = some 6 ∧
    ((parseDownstreamBlob c1blob).toOption.bind (dictGet? 2)).map DownChannel.uncorrected_errors
      = some 2 := by
  refine ⟨?_, ?_, ?_, ?_, ?_⟩ <;> rfl

/-- C2: on a document whose three row-groups contain no header rows, the
HTML parser raises ValueError (from taking the maximum of an empty value
sequence) instead of returning a partial model, contradicting the
never-raises contract. -/
theorem html_parser_empty_tables_raise :
    parse_cgm4331com_html docThreeEmpty = .error .valueError := by decide

/-- C3 counterexample: the splitting heuristic does not cut the digit run
123456 into the three pairs the claim expects. -/
theorem split_heuristic_not_pairs :
    splitGiant (("123456").data) ≠ [['1', '2'], ['3', '4'], ['5', '6']] := by decide

/-- C3 amended: the heuristic consumes two digits only when the three-digit
window read as an integer is below 100, which never happens in 123456, so
the Channel ID fallback row splits it into six single digits. -/
theorem split_heuristic_single_digits :
    buildRowData [c3row] =
      [(chanIdLabel, [['1'], ['2'], ['3'], ['4'], ['5'], ['6']])] ∧
    splitGiant (("123456").data) = [['1'], ['2'], ['3'], ['4'], ['5'], ['6']] := by
  exact ⟨by decide, by decide⟩

/-- C4 counterexample: with two channel ids and the five-digit blob 12345
the code produces three chunks, not two, and the remainder digit 5 appears
as a final short chunk. -/
theorem error_chunking_remainder_cex :
    ((buildErrorData errRowsC4 []).toOption.bind (dictGet? uncorrLabel)) =
      some [['1', '2'], ['3', '4'], ['5']] ∧
    ((buildErrorData errRowsC4 []).toOption.bind (dictGet? uncorrLabel)).map List.length ≠
      some 2 := by
  exact ⟨by decide, by decide⟩

/-- C8 counterexample: the strict-form example does not evaluate to the
97384 the specification states. -/
theorem uptime_strict_example_not_97384 :
    parse_uptime c8str ≠ .ok 97384 := by decide

/-- C8 amended: the strict-form example evaluates to the weighted sum
1*86400 + 2*3600 + 3*60 + 4, which is 93784. -/
theorem uptime_strict_example_value :
    parse_uptime c8str = .ok (1 * 86400 + 2 * 3600 + 3 * 60 + 4) ∧
    (1 * 86400 + 2 * 3600 + 3 * 60 + 4 : Int) = 93784 := by
  exact ⟨by decide, by decide⟩

/-- C7 counterexample: a token ending in s with a non-numeric prefix makes
parse_uptime raise ValueError, so the parser is not total. -/
theorem uptime_parser_raises :
    parse_uptime c7bad = .error .valueError := by decide

/-- Helper: the loose uptime walk leaves the state untouched when every
remaining token is inert. -/
theorem looseLoop_inert (parts : List Str) (l : List Str) (i : Nat)
    (st : Int × Int × Int × Int) (h : ∀ t ∈ l, inertTok t = true) :
    looseLoop parts i l st = .ok st := by
  induction l generalizing i with
  | nil => rfl
  | cons p ps ih =>
    have hp := h p (List.mem_cons_self p ps)
    simp only [inertTok, Bool.and_eq_true, decide_eq_true_eq, Bool.not_eq_true',
      decide_eq_false_iff_not] at hp
    obtain ⟨⟨⟨h1, h2⟩, h3⟩, h4⟩ := hp
    obtain ⟨d, hh, m, sec⟩ := st
    unfold looseLoop
    simp only [if_neg h1, h2, h3, h4, Bool.false_eq_true, if_false]
    exact ih (i + 1) (fun t ht => h t (List.mem_cons_of_mem p ht))

/-- C7 amended: parse_uptime returns 0 without raising on every input that
misses the strict pattern and whose whitespace tokens contain neither a
days marker nor a token ending in h, m or s; inputs with such tokens and a
non-numeric prefix raise ValueError instead of degrading to 0. -/
theorem uptime_inert_tokens_zero (s : Str) (h1 : matchStrictUptime s = none)
    (h2 : ∀ t ∈ splitWs s, inertTok t = true) : parse_uptime s = .ok 0 := by
  have hl := looseLoop_inert (splitWs s) (splitWs s) 0 (0, 0, 0, 0) h2
  unfold parse_uptime
  simp only [h1]
  rw [hl]
  rfl

/-- Witness: the garbage input of the specification parses to 0. -/
theorem uptime_inert_tokens_zero_w : parse_uptime c7garbage = .ok 0 :=
  uptime_inert_tokens_zero c7garbage (by decide) (by decide)

/-- C6: with fewer than three row-groups the HTML parser returns the model
with empty channel maps, raising nothing from the channel-table extraction
(the uptime block runs first, so its successful result is a hypothesis). -/
theorem html_parser_few_tables_empty (doc : HtmlDoc) (u : Option Int)
    (hlen : doc.tables.length < 3) (hup : uptimeSection doc = .ok u) :
    parse_cgm4331com_html doc = .ok ⟨[], [], u⟩ := by
  unfold parse_cgm4331com_html
  rw [hup]
  obtain ⟨up, tables⟩ := doc
  rcases tables with _ | ⟨t0, _ | ⟨t1, _ | ⟨t2, rest⟩⟩⟩ <;> first | rfl | (simp at hlen; omega)

/-- Witness: a document with no row-groups parses to the empty model. -/
theorem html_parser_few_tables_empty_w :
    parse_cgm4331com_html ⟨none, []⟩ = .ok ⟨[], [], none⟩ :=
  html_parser_few_tables_empty ⟨none, []⟩ none (by decide) (by decide)

/-- Helper: coverage and count of the fuelled chunking loop. -/
theorem chunkAux_spec (k : Nat) (hk : 0 < k) : ∀ fuel (l : Str), l.length ≤ fuel →
    (chunkEveryAux fuel k l).flatten = l ∧
    (chunkEveryAux fuel k l).length = (l.length + k - 1) / k := by
  intro fuel
  induction fuel with
  | zero =>
    intro l hl
    have hnil : l = [] := List.length_eq_zero.mp (Nat.le_zero.mp hl)
    subst hnil
    refine ⟨rfl, ?_⟩
    show 0 = (0 + k - 1) / k
    rw [Nat.zero_add]
    exact (Nat.div_eq_of_lt (by omega)).symm
  | succ fuel ih =>
    intro l hl
    cases l with
    | nil =>
      refine ⟨rfl, ?_⟩
      show 0 = (0 + k - 1) / k
      rw [Nat.zero_add]
      exact (Nat.div_eq_of_lt (by omega)).symm
    | cons c tl =>
      cases k with
      | zero => omega
      | succ k' =>
        have hlen2 : (tl.drop (k' + 1 - 1)).length ≤ fuel := by
          simp only [List.length_drop]
          simp only [List.length_cons] at hl
          omega
        obtain ⟨ihf, ihl⟩ := ih (tl.drop (k' + 1 - 1)) hlen2
        constructor
        · show ((c :: tl).take (k' + 1) ::
              chunkEveryAux fuel (k' + 1) (tl.drop (k' + 1 - 1))).flatten = c :: tl
          rw [List.flatten_cons, ihf]
          simp only [Nat.add_sub_cancel, List.take_succ_cons]
          rw [List.cons_append, List.take_append_drop]
        · show ((c :: tl).take (k' + 1) ::
              chunkEveryAux fuel (k' + 1) (tl.drop (k' + 1 - 1))).length =
              ((c :: tl).length + (k' + 1) - 1) / (k' + 1)
          rw [List.length_cons, ihl]
          simp only [List.length_drop, Nat.add_sub_cancel, List.length_cons]
          rcases le_or_lt k' tl.length with h | h
          · have e1 : tl.length - k' + (k' + 1) - 1 = tl.length := by omega
            have e2 : tl.length + 1 + (k' + 1) - 1 = tl.length + (k' + 1) := by omega
            rw [e1, e2, Nat.add_div_right _ (by omega : 0 < k' + 1)]
          · have e1 : tl.length - k' + (k' + 1) - 1 = k' := by omega
            have e2 : tl.length + 1 + (k' + 1) - 1 = tl.length + 1 + k' := by omega
            rw [e1, e2, Nat.div_eq_of_lt (by omega)]
            have : (tl.length + 1 + k') / (k' + 1) = 1 := by
              apply Nat.div_eq_of_lt_le <;> omega
            omega

/-- C4 amended: with chunk size the digit count integer-divided by the
channel count, the chunking loop steps over the whole digit string: the
chunks concatenate back to it (no digit is dropped) and their number is the
rounded-up quotient, so a non-dividing remainder forms a final short chunk
instead of being dropped. -/
theorem error_chunking_covers_string (big : Str) (n : Nat)
    (hchunk : 0 < big.length / n) :
    (chunkEvery (big.length / n) big).flatten = big ∧
    (chunkEvery (big.length / n) big).length =
      (big.length + big.length / n - 1) / (big.length / n) :=
  chunkAux_spec (big.length / n) hchunk big.length big (le_refl _)

/-- Witness: the five-digit blob against two channels gives chunk size two
and three chunks covering the whole string. -/
theorem error_chunking_covers_string_w :
    (chunkEvery ((("12345").data).length / 2) (("12345").data)).flatten = ("12345").data ∧
    (chunkEvery ((("12345").data).length / 2) (("12345").data)).length =
      ((("12345").data).length + (("12345").data).length / 2 - 1) /
        ((("12345").data).length / 2) :=
  error_chunking_covers_string (("12345").data) 2 (by decide)

/-- Helper: bind on a success reduces to the continuation. -/
theorem bindE_ok (a : α) (f : α → Except ε β) : (Except.ok a : Except ε α) >>= f = f a := rfl

/-- Helper: bind on an error short-circuits. -/
theorem bindE_err (e : ε) (f : α → Except ε β) : (Except.error e : Except ε α) >>= f = .error e := rfl

/-- Helper: a downstream record decodes exactly when its fields are
well-formed. -/
theorem mkDownChannel_isOk (fields : List Str) :
    isOkE (mkDownChannel fields) = goodDownFields fields := by
  rcases fields with _ | ⟨f0, _ | ⟨f1, _ | ⟨f2, _ | ⟨f3, _ | ⟨f4, _ | ⟨f5, _ | ⟨f6, _ | ⟨f7, _ | ⟨f8, rest⟩⟩⟩⟩⟩⟩⟩⟩⟩
  all_goals simp only [mkDownChannel, goodDownFields, pyIndex, List.get?, bindE_ok, bindE_err, isOkE]
  all_goals first
  | rfl
  | (cases pyIntStr f0 <;> simp only [bindE_ok, bindE_err, isOkE, Bool.false_and, Bool.true_and] <;> first
     | rfl
     | (cases pyIntStr f3 <;> simp only [bindE_ok, bindE_err, isOkE, Bool.false_and, Bool.true_and] <;> first
        | rfl
        | (cases pyFloatStr f4 <;> simp only [bindE_ok, bindE_err, isOkE, Bool.false_and, Bool.true_and] <;> first
           | rfl
           | (cases pyFloatStr f5 <;> simp only [bindE_ok, bindE_err, isOkE, Bool.false_and, Bool.true_and] <;> first
              | rfl
              | (cases pyFloatStr f6 <;> simp only [bindE_ok, bindE_err, isOkE, Bool.false_and, Bool.true_and] <;> first
                 | rfl
                 | (cases pyIntStr f7 <;> simp only [bindE_ok, bindE_err, isOkE, Bool.false_and, Bool.true_and] <;> first
                    | rfl
                    | (cases pyIntStr f8 <;> simp only [bindE_ok, bindE_err, isOkE, Bool.false_and, Bool.true_and] <;> rfl)))))))

/-- Helper: an upstream record decodes exactly when its fields are
well-formed. -/
theorem mkUpChannel_isOk (fields : List Str) :
    isOkE (mkUpChannel fields) = goodUpFields fields := by
  rcases fields with _ | ⟨f0, _ | ⟨f1, _ | ⟨f2, _ | ⟨f3, _ | ⟨f4, _ | ⟨f5, _ | ⟨f6, rest⟩⟩⟩⟩⟩⟩⟩
  all_goals simp only [mkUpChannel, goodUpFields, pyIndex, List.get?, bindE_ok, bindE_err, isOkE]
  all_goals first
  | rfl
  | (cases pyIntStr f0 <;> simp only [bindE_ok, bindE_err, isOkE, Bool.false_and, Bool.true_and] <;> first
     | rfl
     | (cases pyIntStr f3 <;> simp only [bindE_ok, bindE_err, isOkE, Bool.false_and, Bool.true_and] <;> first
        | rfl
        | (cases pyIntStr f4 <;> simp only [bindE_ok, bindE_err, isOkE, Bool.false_and, Bool.true_and] <;> first
           | rfl
           | (cases pyFloatStr f5 <;> simp only [bindE_ok, bindE_err, isOkE, Bool.false_and, Bool.true_and] <;> first
              | rfl
              | (cases pyFloatStr f6 <;> simp only [bindE_ok, bindE_err, isOkE, Bool.false_and, Bool.true_and] <;> rfl)))))

/-- Helper: the unfolding of the downstream record loop on a cons. -/
theorem parseDSRecords_cons (r : Str) (rs : List Str) (acc : DownMap) :
    parseDSRecords (r :: rs) acc =
      if r = [] then parseDSRecords rs acc
      else
        match mkDownChannel (pySplit sepField r) with
        | .ok ch => parseDSRecords rs (dictInsert ch.channel ch acc)
        | .error e => .error e := rfl

/-- Helper: the unfolding of the upstream record loop on a cons. -/
theorem parseUSRecords_cons (r : Str) (rs : List Str) (acc : UpMap) :
    parseUSRecords (r :: rs) acc =
      if r = [] then parseUSRecords rs acc
      else
        match mkUpChannel (pySplit sepField r) with
        | .ok ch => parseUSRecords rs (dictInsert ch.channel ch acc)
        | .error e => .error e := rfl

/-- Helper: the downstream record loop fails as soon as some non-empty
record is not well-formed. -/
theorem parseDSRecords_err (records : List Str) (acc : DownMap)
    (h : ∃ r ∈ records, r ≠ [] ∧ goodDownFields (pySplit sepField r) = false) :
    ∃ e, parseDSRecords records acc = .error e := by
  induction records generalizing acc with
  | nil => simp at h
  | cons r rs ih =>
    obtain ⟨r', hmem, hne, hbad⟩ := h
    by_cases hr : r = []
    · subst hr
      have hmem' : r' ∈ rs := by
        rcases List.mem_cons.mp hmem with rfl | h'
        · exact absurd rfl hne
        · exact h'
      have step : parseDSRecords ([] :: rs) acc = parseDSRecords rs acc := rfl
      rw [step]
      exact ih acc ⟨r', hmem', hne, hbad⟩
    · cases hmk : mkDownChannel (pySplit sepField r) with
      | error e =>
        refine ⟨e, ?_⟩
        rw [parseDSRecords_cons, if_neg hr, hmk]
      | ok ch =>
        rcases List.mem_cons.mp hmem with rfl | hmem'
        · exfalso
          have hiso := mkDownChannel_isOk (pySplit sepField r')
          rw [hmk, hbad] at hiso
          simp [isOkE] at hiso
        · have step : parseDSRecords (r :: rs) acc =
              parseDSRecords rs (dictInsert ch.channel ch acc) := by
            rw [parseDSRecords_cons, if_neg hr, hmk]
          rw [step]
          exact ih _ ⟨r', hmem', hne, hbad⟩

/-- Helper: the upstream record loop fails as soon as some non-empty
record is not well-formed. -/
theorem parseUSRecords_err (records : List Str) (acc : UpMap)
    (h : ∃ r ∈ records, r ≠ [] ∧ goodUpFields (pySplit sepField r) = false) :
    ∃ e, parseUSRecords records acc = .error e := by
  induction records generalizing acc with
  | nil => simp at h
  | cons r rs ih =>
    obtain ⟨r', hmem, hne, hbad⟩ := h
    by_cases hr : r = []
    · subst hr
      have hmem' : r' ∈ rs := by
        rcases List.mem_cons.mp hmem with rfl | h'
        · exact absurd rfl hne
        · exact h'
      have step : parseUSRecords ([] :: rs) acc = parseUSRecords rs acc := rfl
      rw [step]
      exact ih acc ⟨r', hmem', hne, hbad⟩
    · cases hmk : mkUpChannel (pySplit sepField r) with
      | error e =>
        refine ⟨e, ?_⟩
        rw [parseUSRecords_cons, if_neg hr, hmk]
      | ok ch =>
        rcases List.mem_cons.mp hmem with rfl | hmem'
        · exfalso
          have hiso := mkUpChannel_isOk (pySplit sepField r')
          rw [hmk, hbad] at hiso
          simp [isOkE] at hiso
        · have step : parseUSRecords (r :: rs) acc =
              parseUSRecords rs (dictInsert ch.channel ch acc) := by
            rw [parseUSRecords_cons, if_neg hr, hmk]
          rw [step]
          exact ih _ ⟨r', hmem', hne, hbad⟩

/-- C5: whenever some non-empty record of a blob has fewer fields than the
direction requires (9 downstream, 7 upstream) or a numeric field that does
not parse, the JSON channel parser fails with a typed error instead of
returning a model with fabricated values; goodDownFields and goodUpFields
state exactly that a record has the required positions and parseable
numeric fields. -/
theorem json_parser_bad_record_fails (dsBlob usBlob : Str) :
    ((∃ r ∈ pySplit sepRecord dsBlob, r ≠ [] ∧ goodDownFields (pySplit sepField r) = false) →
      ∃ e, parseDownstreamBlob dsBlob = .error e) ∧
    ((∃ r ∈ pySplit sepRecord usBlob, r ≠ [] ∧ goodUpFields (pySplit sepField r) = false) →
      ∃ e, parseUpstreamBlob usBlob = .error e) :=
  ⟨fun h => parseDSRecords_err (pySplit sepRecord dsBlob) [] h,
   fun h => parseUSRecords_err (pySplit sepRecord usBlob) [] h⟩

/-- Witness: the four-field downstream record fails, in both directions. -/
theorem json_parser_bad_record_fails_w :
    (∃ e, parseDownstreamBlob c5blobBad = .error e) ∧
    (∃ e, parseUpstreamBlob c5blobBad = .error e) :=
  ⟨(json_parser_bad_record_fails c5blobBad c5blobBad).1 (by decide),
   (json_parser_bad_record_fails c5blobBad c5blobBad).2 (by decide)⟩

/-- Helper: membership after a dict insertion. -/
theorem mem_dictInsert [DecidableEq κ] (k : κ) (v : α) (m : List (κ × α))
    (p : κ × α) (hp : p ∈ dictInsert k v m) : p = (k, v) ∨ p ∈ m := by
  induction m with
  | nil =>
    unfold dictInsert at hp
    exact Or.inl (List.mem_singleton.mp hp)
  | cons q tl ih =>
    unfold dictInsert at hp
    by_cases hq : q.1 = k
    · rw [if_pos hq] at hp
      rcases List.mem_cons.mp hp with rfl | h'
      · left
        rw [hq]
      · right
        exact List.mem_cons_of_mem q h'
    · rw [if_neg hq] at hp
      rcases List.mem_cons.mp hp with rfl | h'
      · right
        exact List.mem_cons_self q tl
      · rcases ih h' with h1 | h2
        · exact Or.inl h1
        · exact Or.inr (List.mem_cons_of_mem q h2)

/-- Helper: inserting an entry whose channel equals its key keeps the downstream invariant. -/
theorem dictInsert_downInv (k : Int) (v : DownChannel) (m : DownMap)
    (hm : DownInv m) (hv : v.channel = k) : DownInv (dictInsert k v m) := by
  intro p hp
  rcases mem_dictInsert k v m p hp with rfl | h'
  · exact hv
  · exact hm p h'

/-- Helper: inserting an entry whose channel equals its key keeps the upstream invariant. -/
theorem dictInsert_upInv (k : Int) (v : UpChannel) (m : UpMap)
    (hm : UpInv m) (hv : v.channel = k) : UpInv (dictInsert k v m) := by
  intro p hp
  rcases mem_dictInsert k v m p hp with rfl | h'
  · exact hv
  · exact hm p h'

/-- Helper: a channel-preserving update keeps the downstream invariant. -/
theorem updateDown_inv (m : DownMap) (k : Int) (f : DownChannel → DownChannel)
    (hm : DownInv m) (hf : ∀ c, (f c).channel = c.channel) :
    DownInv (updateDown m k f) := by
  intro p hp
  unfold updateDown at hp
  obtain ⟨q, hq, hqe⟩ := List.mem_map.mp hp
  by_cases h1 : q.1 = k
  · rw [if_pos h1] at hqe
    subst hqe
    show (f q.2).channel = q.1
    rw [hf q.2]
    exact hm q hq
  · rw [if_neg h1] at hqe
    subst hqe
    exact hm q hq

/-- Helper: a channel-preserving update keeps the upstream invariant. -/
theorem updateUp_inv (m : UpMap) (k : Int) (f : UpChannel → UpChannel)
    (hm : UpInv m) (hf : ∀ c, (f c).channel = c.channel) :
    UpInv (updateUp m k f) := by
  intro p hp
  unfold updateUp at hp
  obtain ⟨q, hq, hqe⟩ := List.mem_map.mp hp
  by_cases h1 : q.1 = k
  · rw [if_pos h1] at hqe
    subst hqe
    show (f q.2).channel = q.1
    rw [hf q.2]
    exact hm q hq
  · rw [if_neg h1] at hqe
    subst hqe
    exact hm q hq

/-- Helper: one downstream value assignment keeps the invariant. -/
theorem applyDownValue_inv (m : DownMap) (cn : Int) (header value : Str)
    (hm : DownInv m) : DownInv (applyDownValue m cn header value) := by
  unfold applyDownValue
  repeat' split
  all_goals first
    | exact hm
    | exact updateDown_inv m cn _ hm (fun c => rfl)

/-- Helper: one upstream value assignment keeps the invariant. -/
theorem applyUpValue_inv (m : UpMap) (cn : Int) (header value : Str)
    (hm : UpInv m) : UpInv (applyUpValue m cn header value) := by
  unfold applyUpValue
  repeat' split
  all_goals first
    | exact hm
    | exact updateUp_inv m cn _ hm (fun c => rfl)

/-- Helper: a downstream row assignment keeps the invariant. -/
theorem applyDownRow_inv (header : Str) (i : Nat) (vs : List Str) (m : DownMap)
    (hm : DownInv m) : DownInv (applyDownRow header i vs m) := by
  induction vs generalizing i m with
  | nil => exact hm
  | cons v rest ih =>
    exact ih (i + 1) _ (applyDownValue_inv m ((i : Int) + 1) header v hm)

/-- Helper: an upstream row assignment keeps the invariant. -/
theorem applyUpRow_inv (header : Str) (i : Nat) (vs : List Str) (m : UpMap)
    (hm : UpInv m) : UpInv (applyUpRow header i vs m) := by
  induction vs generalizing i m with
  | nil => exact hm
  | cons v rest ih =>
    exact ih (i + 1) _ (applyUpValue_inv m ((i : Int) + 1) header v hm)

/-- Helper: the downstream assignment loop keeps the invariant. -/
theorem assignDownValues_inv (data : List (Str × List Str)) (m : DownMap)
    (hm : DownInv m) : DownInv (assignDownValues data m) := by
  induction data generalizing m with
  | nil => exact hm
  | cons kv rest ih =>
    obtain ⟨h, vs⟩ := kv
    unfold assignDownValues
    by_cases hh : h = chanIdLabel
    · rw [if_pos hh]
      exact ih m hm
    · rw [if_neg hh]
      exact ih _ (applyDownRow_inv h 0 vs m hm)

/-- Helper: the upstream assignment loop keeps the invariant. -/
theorem assignUpValues_inv (data : List (Str × List Str)) (m : UpMap)
    (hm : UpInv m) : UpInv (assignUpValues data m) := by
  induction data generalizing m with
  | nil => exact hm
  | cons kv rest ih =>
    obtain ⟨h, vs⟩ := kv
    unfold assignUpValues
    by_cases hh : h = chanIdLabel
    · rw [if_pos hh]
      exact ih m hm
    · rw [if_neg hh]
      exact ih _ (applyUpRow_inv h 0 vs m hm)

/-- Helper: the downstream creation loop keeps the invariant. -/
theorem buildDownLoop_inv (ids : List Str) (idxs : List Nat) (m : DownMap)
    (hm : DownInv m) : DownInv (buildDownLoop ids idxs m) := by
  induction idxs generalizing m with
  | nil => exact hm
  | cons i rest ih =>
    exact ih _ (dictInsert_downInv _ _ m hm rfl)

/-- Helper: the upstream creation loop keeps the invariant. -/
theorem buildUpLoop_inv (ids : List Str) (idxs : List Nat) (m : UpMap)
    (hm : UpInv m) : UpInv (buildUpLoop ids idxs m) := by
  induction idxs generalizing m with
  | nil => exact hm
  | cons i rest ih =>
    exact ih _ (dictInsert_upInv _ _ m hm rfl)

/-- Helper: the downstream table map satisfies the invariant. -/
theorem downTableChannels_inv (data : List (Str × List Str)) (num : Nat) :
    DownInv (downTableChannels data num) := by
  unfold downTableChannels
  have hnil : DownInv ([] : DownMap) := by
    intro p hp
    simp at hp
  split
  · split
    · exact assignDownValues_inv data _ (buildDownLoop_inv _ _ [] hnil)
    · exact hnil
  · exact hnil

/-- Helper: the upstream table map satisfies the invariant. -/
theorem upTableChannels_inv (data : List (Str × List Str)) (num : Nat) :
    UpInv (upTableChannels data num) := by
  unfold upTableChannels
  have hnil : UpInv ([] : UpMap) := by
    intro p hp
    simp at hp
  split
  · split
    · exact assignUpValues_inv data _ (buildUpLoop_inv _ _ [] hnil)
    · exact hnil
  · exact hnil

/-- Helper: one error assignment keeps the invariant. -/
theorem assignErrorAt_inv (corr uncorr : List Str) (i : Nat) (m : DownMap)
    (hm : DownInv m) : DownInv (assignErrorAt corr uncorr i m) := by
  unfold assignErrorAt
  dsimp only
  repeat' split
  all_goals first
    | exact hm
    | exact updateDown_inv _ _ _ hm (fun c => rfl)
    | exact updateDown_inv _ _ _ (updateDown_inv _ _ _ hm (fun c => rfl)) (fun c => rfl)

/-- Helper: the error assignment loop keeps the invariant. -/
theorem assignErrorLoop_inv (corr uncorr : List Str) (i : Nat) (ids : List Str)
    (m : DownMap) (hm : DownInv m) : DownInv (assignErrorLoop corr uncorr i ids m) := by
  induction ids generalizing i m with
  | nil => exact hm
  | cons x rest ih =>
    exact ih (i + 1) _ (assignErrorAt_inv corr uncorr i m hm)

/-- Helper: the gated error assignment keeps the invariant. -/
theorem assignErrors_inv (ed : List (Str × List Str)) (m : DownMap)
    (hm : DownInv m) : DownInv (assignErrors ed m) := by
  unfold assignErrors
  repeat' split
  all_goals first
    | exact hm
    | exact assignErrorLoop_inv _ _ 0 _ m hm

/-- Helper: the downstream record loop keeps the invariant. -/
theorem parseDSRecords_inv (records : List Str) (acc : DownMap) (m : DownMap)
    (hacc : DownInv acc) (h : parseDSRecords records acc = .ok m) : DownInv m := by
  induction records generalizing acc with
  | nil =>
    injection h with h
    subst h
    exact hacc
  | cons r rs ih =>
    rw [parseDSRecords_cons] at h
    by_cases hr : r = []
    · rw [if_pos hr] at h
      exact ih acc hacc h
    · rw [if_neg hr] at h
      cases hmk : mkDownChannel (pySplit sepField r) with
      | error e =>
        rw [hmk] at h
        exact absurd h (by simp)
      | ok ch =>
        rw [hmk] at h
        exact ih _ (dictInsert_downInv _ _ acc hacc rfl) h

/-- Helper: the upstream record loop keeps the invariant. -/
theorem parseUSRecords_inv (records : List Str) (acc : UpMap) (m : UpMap)
    (hacc : UpInv acc) (h : parseUSRecords records acc = .ok m) : UpInv m := by
  induction records generalizing acc with
  | nil =>
    injection h with h
    subst h
    exact hacc
  | cons r rs ih =>
    rw [parseUSRecords_cons] at h
    by_cases hr : r = []
    · rw [if_pos hr] at h
      exact ih acc hacc h
    · rw [if_neg hr] at h
      cases hmk : mkUpChannel (pySplit sepField r) with
      | error e =>
        rw [hmk] at h
        exact absurd h (by simp)
      | ok ch =>
        rw [hmk] at h
        exact ih _ (dictInsert_upInv _ _ acc hacc rfl) h

/-- Helper: the empty downstream map satisfies the invariant. -/
theorem nilDownInv : DownInv ([] : DownMap) := by
  intro p hp
  simp at hp

/-- Helper: the empty upstream map satisfies the invariant. -/
theorem nilUpInv : UpInv ([] : UpMap) := by
  intro p hp
  simp at hp

/-- C9: for every model either parser returns, every entry of the downstream and upstream maps stores a channel field equal to its own map key. -/
theorem parsers_channel_field_eq_key :
    (∀ (d : MB8600Data) (m : ParseResult), parse_mb8600_json d = .ok m →
      DownInv m.downstream ∧ UpInv m.upstream) ∧
    (∀ (doc : HtmlDoc) (m : ParseResult), parse_cgm4331com_html doc = .ok m →
      DownInv m.downstream ∧ UpInv m.upstream) := by
  constructor
  · intro d m h
    unfold parse_mb8600_json at h
    cases hds : parseDownstreamBlob d.dsBlob with
    | error e =>
      rw [hds] at h
      exact absurd h (by simp [bindE_err])
    | ok ds =>
      rw [hds, bindE_ok] at h
      cases hus : parseUpstreamBlob d.usBlob with
      | error e =>
        rw [hus] at h
        exact absurd h (by simp [bindE_err])
      | ok us =>
        rw [hus, bindE_ok] at h
        cases hup : parse_uptime d.uptimeStr with
        | error e =>
          rw [hup] at h
          exact absurd h (by simp [bindE_err])
        | ok up =>
          rw [hup, bindE_ok] at h
          injection h with h
          subst h
          constructor
          · exact parseDSRecords_inv _ [] ds nilDownInv hds
          · exact parseUSRecords_inv _ [] us nilUpInv hus
  · intro doc m h
    unfold parse_cgm4331com_html at h
    cases hup : uptimeSection doc with
    | error e =>
      rw [hup] at h
      exact absurd h (by simp [bindE_err])
    | ok u =>
      rw [hup, bindE_ok] at h
      cases htab : doc.tables with
      | nil =>
        rw [htab] at h
        injection h with h
        subst h
        exact ⟨nilDownInv, nilUpInv⟩
      | cons t0 rest0 =>
        cases rest0 with
        | nil =>
          rw [htab] at h
          injection h with h
          subst h
          exact ⟨nilDownInv, nilUpInv⟩
        | cons t1 rest1 =>
          cases rest1 with
          | nil =>
            rw [htab] at h
            injection h with h
            subst h
            exact ⟨nilDownInv, nilUpInv⟩
          | cons t2 rest2 =>
            rw [htab] at h
            dsimp only at h
            cases hnd : pyMax ((buildRowData t0).map (fun kv => kv.2.length)) with
            | error e =>
              rw [hnd] at h
              exact absurd h (by simp [bindE_err])
            | ok numDs =>
              rw [hnd, bindE_ok] at h
              cases hnu : pyMax ((buildRowData t1).map (fun kv => kv.2.length)) with
              | error e =>
                rw [hnu] at h
                exact absurd h (by simp [bindE_err])
              | ok numUs =>
                rw [hnu, bindE_ok] at h
                cases hed : buildErrorData t2 [] with
                | error e =>
                  rw [hed] at h
                  exact absurd h (by simp [bindE_err])
                | ok ed =>
                  rw [hed, bindE_ok] at h
                  injection h with h
                  subst h
                  constructor
                  · exact assignErrors_inv ed _ (downTableChannels_inv _ numDs)
                  · exact upTableChannels_inv _ numUs

/-- Witness: both parsers applied to concrete inputs, whose empty maps satisfy the invariant. -/
theorem parsers_channel_field_eq_key_w :
    (DownInv ([] : DownMap) ∧ UpInv ([] : UpMap)) ∧
    (DownInv ([] : DownMap) ∧ UpInv ([] : UpMap)) :=
  ⟨parsers_channel_field_eq_key.1 ⟨[], [], ("0s").data⟩ ⟨[], [], some 0⟩ (by decide),
   parsers_channel_field_eq_key.2 ⟨none, []⟩ ⟨[], [], none⟩ (by decide)⟩

/-- Helper: a successful string-keyed subscription reveals a dict and its lookup. -/
theorem pyGetItem_vstr_ok (a : PyVal) (s : Str) (v : PyVal)
    (h : pyGetItem a (.vstr s) = .ok v) :
    ∃ l, a = .vdict l ∧ pyDictLookup (.vstr s) l = some v := by
  cases a with
  | vdict l =>
    refine ⟨l, rfl, ?_⟩
    simp only [pyGetItem, pyHashableKey, if_pos] at h
    cases hlk : pyDictLookup (.vstr s) l with
    | some w =>
      rw [hlk] at h
      injection h with h
      rw [h]
    | none =>
      rw [hlk] at h
      exact absurd h (by simp)
  | vnone => exact absurd h (by simp [pyGetItem])
  | vbool b => exact absurd h (by simp [pyGetItem])
  | vint n => exact absurd h (by simp [pyGetItem])
  | vfloat f => exact absurd h (by simp [pyGetItem])
  | vstr s2 => exact absurd h (by simp [pyGetItem])
  | vlist l => exact absurd h (by simp [pyGetItem])

/-- Helper: a dict-tested value is a dict. -/
theorem isDict_vdict (a : PyVal) (h : a.isDict = true) : ∃ l, a = .vdict l := by
  cases a <;> simp [PyVal.isDict] at h <;> exact ⟨_, rfl⟩

/-- Helper: a successful int-keyed dict subscription is the lookup. -/
theorem pyGetItem_dict_int (l : List (PyVal × PyVal)) (n : Int) (c : PyVal)
    (h : pyGetItem (.vdict l) (.vint n) = .ok c) : pyDictLookup (.vint n) l = some c := by
  simp only [pyGetItem, pyHashableKey, if_pos] at h
  cases hlk : pyDictLookup (.vint n) l with
  | some w =>
    rw [hlk] at h
    injection h with h
    rw [h]
  | none =>
    rw [hlk] at h
    exact absurd h (by simp)

/-- Helper: a successful lookup means the dict is non-empty. -/
theorem pyDictLookup_some_ne (k : PyVal) (l : List (PyVal × PyVal)) (v : PyVal)
    (h : pyDictLookup k l = some v) : l ≠ [] := by
  cases l with
  | nil => simp [pyDictLookup] at h
  | cons q tl => simp

/-- Helper: the getter body returns the stored value when the whole path is present through dicts. -/
theorem getValueBody_pos (dirKey : Str) (data d c v : PyVal) (key : Str) (channel : Int)
    (h1 : pyGetItem data (.vstr dirKey) = .ok d) (h2 : d.isDict = true)
    (h3 : pyGetItem d (.vint channel) = .ok c) (h4 : c.isDict = true)
    (h5 : pyGetItem c (.vstr key) = .ok v) :
    getValueBody dirKey data key channel = .ok v := by
  obtain ⟨l, rfl, hlk⟩ := pyGetItem_vstr_ok data dirKey d h1
  obtain ⟨l2, rfl⟩ := isDict_vdict d h2
  have hlk2 := pyGetItem_dict_int l2 channel c h3
  obtain ⟨l3, rfl⟩ := isDict_vdict c h4
  obtain ⟨l3x, hl3, hlk3⟩ := pyGetItem_vstr_ok (.vdict l3) key v h5
  injection hl3 with hl3
  subst hl3
  have hne : l ≠ [] := pyDictLookup_some_ne _ _ _ hlk
  unfold getValueBody
  simp [pyTruthy, PyVal.isDict, hne, pyContains, pyHashableKey, hlk, hlk2, hlk3,
    pyGetItem, bindE_ok]

/-- Helper: the getter body returns None when the data is not a dict. -/
theorem getValueBody_not_dict (dirKey : Str) (data : PyVal) (key : Str) (channel : Int)
    (h : data.isDict = false) : getValueBody dirKey data key channel = .ok .vnone := by
  unfold getValueBody
  simp [h]
  rfl

/-- Helper: the getter body returns None when the direction key is absent. -/
theorem getValueBody_no_dir (dirKey : Str) (data : PyVal) (key : Str) (channel : Int)
    (hd : data.isDict = true) (h : pyContains data (.vstr dirKey) = .ok false) :
    getValueBody dirKey data key channel = .ok .vnone := by
  obtain ⟨l, rfl⟩ := isDict_vdict data hd
  by_cases hne : l = []
  · subst hne
    unfold getValueBody
    simp [pyTruthy]
    rfl
  · simp only [pyContains, pyHashableKey, if_pos] at h
    injection h with h
    unfold getValueBody
    simp [pyTruthy, PyVal.isDict, hne, pyContains, pyHashableKey, h, bindE_ok]
    rfl

/-- Helper: the getter body returns None when the channel key is absent. -/
theorem getValueBody_no_channel (dirKey : Str) (data d : PyVal) (key : Str) (channel : Int)
    (h1 : pyGetItem data (.vstr dirKey) = .ok d) (h2 : d.isDict = true)
    (h3 : pyContains d (.vint channel) = .ok false) :
    getValueBody dirKey data key channel = .ok .vnone := by
  obtain ⟨l, rfl, hlk⟩ := pyGetItem_vstr_ok data dirKey d h1
  obtain ⟨l2, rfl⟩ := isDict_vdict d h2
  simp only [pyContains, pyHashableKey, if_pos] at h3
  injection h3 with h3
  have hne : l ≠ [] := pyDictLookup_some_ne _ _ _ hlk
  unfold getValueBody
  simp [pyTruthy, PyVal.isDict, hne, pyContains, pyHashableKey, hlk, h3,
    pyGetItem, bindE_ok]

/-- Helper: the getter body returns None when the metric key is absent. -/
theorem getValueBody_no_key (dirKey : Str) (data d c : PyVal) (key : Str) (channel : Int)
    (h1 : pyGetItem data (.vstr dirKey) = .ok d) (h2 : d.isDict = true)
    (h3 : pyGetItem d (.vint channel) = .ok c) (h4 : c.isDict = true)
    (h5 : pyContains c (.vstr key) = .ok false) :
    getValueBody dirKey data key channel = .ok .vnone := by
  obtain ⟨l, rfl, hlk⟩ := pyGetItem_vstr_ok data dirKey d h1
  obtain ⟨l2, rfl⟩ := isDict_vdict d h2
  have hlk2 := pyGetItem_dict_int l2 channel c h3
  obtain ⟨l3, rfl⟩ := isDict_vdict c h4
  simp only [pyContains, pyHashableKey, if_pos] at h5
  injection h5 with h5
  have hne : l ≠ [] := pyDictLookup_some_ne _ _ _ hlk
  unfold getValueBody
  simp [pyTruthy, PyVal.isDict, hne, pyContains, pyHashableKey, hlk, hlk2, h5,
    pyGetItem, bindE_ok]

/-- C10: get_downstream_value and get_upstream_value are total: they return None when the data is not a dict, the direction map is absent, the channel key is absent, or the metric key is absent, and otherwise return exactly the stored scalar data at direction, channel, key; the embedding catches every modelled exception, so no input raises. -/
theorem getters_total_and_exact (data : PyVal) (key : Str) (channel : Int) :
    (data.isDict = false →
      get_downstream_value data key channel = .vnone ∧
      get_upstream_value data key channel = .vnone) ∧
    (data.isDict = true → pyContains data (.vstr dsKeyStr) = .ok false →
      get_downstream_value data key channel = .vnone) ∧
    (data.isDict = true → pyContains data (.vstr usKeyStr) = .ok false →
      get_upstream_value data key channel = .vnone) ∧
    (∀ d, pyGetItem data (.vstr dsKeyStr) = .ok d → d.isDict = true →
      pyContains d (.vint channel) = .ok false →
      get_downstream_value data key channel = .vnone) ∧
    (∀ d, pyGetItem data (.vstr usKeyStr) = .ok d → d.isDict = true →
      pyContains d (.vint channel) = .ok false →
      get_upstream_value data key channel = .vnone) ∧
    (∀ d c, pyGetItem data (.vstr dsKeyStr) = .ok d → d.isDict = true →
      pyGetItem d (.vint channel) = .ok c → c.isDict = true →
      pyContains c (.vstr key) = .ok false →
      get_downstream_value data key channel = .vnone) ∧
    (∀ d c, pyGetItem data (.vstr usKeyStr) = .ok d → d.isDict = true →
      pyGetItem d (.vint channel) = .ok c → c.isDict = true →
      pyContains c (.vstr key) = .ok false →
      get_upstream_value data key channel = .vnone) ∧
    (∀ d c v, pyGetItem data (.vstr dsKeyStr) = .ok d → d.isDict = true →
      pyGetItem d (.vint channel) = .ok c → c.isDict = true →
      pyGetItem c (.vstr key) = .ok v →
      get_downstream_value data key channel = v) ∧
    (∀ d c v, pyGetItem data (.vstr usKeyStr) = .ok d → d.isDict = true →
      pyGetItem d (.vint channel) = .ok c → c.isDict = true →
      pyGetItem c (.vstr key) = .ok v →
      get_upstream_value data key channel = v) := by
  refine ⟨?_, ?_, ?_, ?_, ?_, ?_, ?_, ?_, ?_⟩
  · intro h
    constructor
    · unfold get_downstream_value
      rw [getValueBody_not_dict _ _ _ _ h]
    · unfold get_upstream_value
      rw [getValueBody_not_dict _ _ _ _ h]
  · intro hd h
    unfold get_downstream_value
    rw [getValueBody_no_dir _ _ _ _ hd h]
  · intro hd h
    unfold get_upstream_value
    rw [getValueBody_no_dir _ _ _ _ hd h]
  · intro d h1 h2 h3
    unfold get_downstream_value
    rw [getValueBody_no_channel _ _ _ _ _ h1 h2 h3]
  · intro d h1 h2 h3
    unfold get_upstream_value
    rw [getValueBody_no_channel _ _ _ _ _ h1 h2 h3]
  · intro d c h1 h2 h3 h4 h5
    unfold get_downstream_value
    rw [getValueBody_no_key _ _ _ _ _ _ h1 h2 h3 h4 h5]
  · intro d c h1 h2 h3 h4 h5
    unfold get_upstream_value
    rw [getValueBody_no_key _ _ _ _ _ _ h1 h2 h3 h4 h5]
  · intro d c v h1 h2 h3 h4 h5
    unfold get_downstream_value
    rw [getValueBody_pos _ _ _ _ _ _ _ h1 h2 h3 h4 h5]
  · intro d c v h1 h2 h3 h4 h5
    unfold get_upstream_value
    rw [getValueBody_pos _ _ _ _ _ _ _ h1 h2 h3 h4 h5]

/-- Witness: the concrete data value yields its stored snr and power scalars, and a non-dict yields None. -/
theorem getters_total_and_exact_w :
    get_downstream_value c10data (['s', 'n', 'r']) 1 = .vfloat (.num 40) ∧
    get_upstream_value c10data (['p', 'o', 'w', 'e', 'r']) 1 = .vint 3 ∧
    get_downstream_value (.vint 7) (['s', 'n', 'r']) 1 = .vnone :=
  ⟨(getters_total_and_exact c10data (['s', 'n', 'r']) 1).2.2.2.2.2.2.2.1
      _ _ _ (by rfl) (by rfl) (by rfl) (by rfl) (by rfl),
   (getters_total_and_exact c10data (['p', 'o', 'w', 'e', 'r']) 1).2.2.2.2.2.2.2.2
      _ _ _ (by rfl) (by rfl) (by rfl) (by rfl) (by rfl),
   ((getters_total_and_exact (.vint 7) (['s', 'n', 'r']) 1).1 (by rfl)).1⟩
